import Mathlib

/-!
Shallow embedding of `BasicStats.hpp` (namespace `BasicStats`).

Modelling conventions:
* The C++ element type `T` and the `double` results are both modelled as `ℚ`
  (exact arithmetic standing for real-valued computation; floating-point
  rounding is outside the model).
* `std::sort` on a private copy is modelled by `List.insertionSort (· ≤ ·)`
  (any comparison sort: only sortedness and permutation matter).
* `std::mt19937` seeded with `seed` composed with
  `std::uniform_int_distribution<size_t>(0, size-1)` is a deterministic but
  implementation-defined stream of indices; we model each call of
  `resample` as consuming an explicit index stream `draw : ℕ → ℕ` (the i-th
  value drawn from the distribution).  The C++ standard guarantees every
  drawn value lies in `[0, size-1]`; theorems carry that guarantee as the
  hypothesis `∀ i, draw i < data.length`.
* C++ exceptions (`std::out_of_range`) are modelled with `Except String`,
  the thrown message kept verbatim.
* `std::sqrt` is an external library routine; definitions that call it are
  parametrised by a function `sqrt : ℚ → ℚ`.
-/

namespace BasicStats

/-- Embedding of `BasicStats::sum` (BasicStats.hpp:24-28):
`std::accumulate(data.begin(), data.end(), 0.0)` is a left fold with
initial value `0`. -/
def sum (data : List ℚ) : ℚ :=
  data.foldl (· + ·) 0

/-- Embedding of `BasicStats::mean` (BasicStats.hpp:37-42). -/
def mean (data : List ℚ) : ℚ :=
  if data = [] then 0 else sum data / (data.length : ℚ)

/-- Embedding of `BasicStats::variance` (BasicStats.hpp:123-133):
population variance, accumulated by a left fold over squared deviations
from the precomputed mean. -/
def variance (data : List ℚ) : ℚ :=
  if data = [] then 0
  else
    let mean_value := mean data
    let sum_squared_diff :=
      data.foldl (fun acc value => acc + (value - mean_value) * (value - mean_value)) 0
    sum_squared_diff / (data.length : ℚ)

/-- Embedding of `BasicStats::stdev` (BasicStats.hpp:142-146), parametrised
by the external square-root routine `std::sqrt`. -/
def stdev (sqrt : ℚ → ℚ) (data : List ℚ) : ℚ :=
  sqrt (variance data)

/-- Embedding of `BasicStats::coeff_of_variation` (BasicStats.hpp:155-160):
guarded only by the empty check, then divides `stdev data` by `mean data`. -/
def coeff_of_variation (sqrt : ℚ → ℚ) (data : List ℚ) : ℚ :=
  if data = [] then 0 else stdev sqrt data / mean data

/-- Embedding of `BasicStats::median` (BasicStats.hpp:66-77). -/
def median (data : List ℚ) : ℚ :=
  if data = [] then 0
  else
    let sorted_data := data.insertionSort (· ≤ ·)
    let n := sorted_data.length
    if n % 2 = 0 then (sorted_data.getD (n / 2 - 1) 0 + sorted_data.getD (n / 2) 0) / 2
    else sorted_data.getD (n / 2) 0

/-- The interpolation step of `BasicStats::percentile` (BasicStats.hpp:206-211)
on the already-sorted data, at continuous rank `rank`:
`lower = static_cast<size_t>(floor(rank))`, `upper = static_cast<size_t>(ceil(rank))`,
`weight = rank - lower`; in every reachable call `rank ≥ 0`, so the
`size_t` casts are `Nat.floor` and `Nat.ceil`. -/
def interp_at (sorted_data : List ℚ) (rank : ℚ) : ℚ :=
  let lower := ⌊rank⌋₊
  let upper := ⌈rank⌉₊
  let weight := rank - (lower : ℚ)
  if sorted_data.length ≤ upper then sorted_data.getD lower 0
  else sorted_data.getD lower 0 + weight * (sorted_data.getD upper 0 - sorted_data.getD lower 0)

/-- Embedding of `BasicStats::percentile` (BasicStats.hpp:199-212): the empty
check precedes the range check; then a private copy is sorted and the value at
continuous rank `(p/100) * (n-1)` is linearly interpolated. -/
def percentile (data : List ℚ) (p : ℚ) : Except String ℚ :=
  if data = [] then .ok 0
  else if p < 0 ∨ 100 < p then .error ("Percentile must be between 0 and 100.")
  else
    let sorted_data := data.insertionSort (· ≤ ·)
    .ok (interp_at sorted_data ((p / 100) * ((sorted_data.length - 1 : ℕ) : ℚ)))

/-- Embedding of `BasicStats::resample` (BasicStats.hpp:266-280): on a
non-empty input, the i-th output element is `data[index]` where `index` is the
i-th value drawn from the uniform distribution over `[0, size-1]`; the
generator-plus-distribution pipeline is the explicit stream `draw`. -/
def resample (data : List ℚ) (draw : ℕ → ℕ) : List ℚ :=
  if data = [] then []
  else (List.range data.length).map fun i => data.getD (draw i) 0

/-- The bootstrap loop of the single-sample `BasicStats::confidence_interval`
(BasicStats.hpp:299-304): iteration `i` draws a fresh resample with its own
index stream `seeds i` and records `func` of it.  The C++ source declares the
loop-local `resamepled_data` but applies `func` to `resampled_data`
(BasicStats.hpp:301-302), a misspelling that does not compile; the embedding
follows the evident intent that the freshly drawn resample is the argument of
`func`. -/
def bootstrap_results (data : List ℚ) (func : List ℚ → ℚ) (nmax : ℕ)
    (seeds : ℕ → ℕ → ℕ) : List ℚ :=
  (List.range nmax).map fun i => func (resample data (seeds i))

/-- Embedding of the single-sample `BasicStats::confidence_interval`
(BasicStats.hpp:292-308).  `seeds i` is the index stream consumed by the
resample of iteration `i` (in the C++ code each iteration seeds a fresh
generator from `std::random_device`). -/
def confidence_interval (data : List ℚ) (func : List ℚ → ℚ) (confidence_level : ℚ)
    (nmax : ℕ) (seeds : ℕ → ℕ → ℕ) : Except String (ℚ × ℚ) :=
  if data = [] then .ok (0, 0)
  else if confidence_level ≤ 0 ∨ 100 ≤ confidence_level then
    .error ("Confidence level must be between 0 and 1.")
  else
    let result_vector := bootstrap_results data func nmax seeds
    match percentile result_vector ((100 - confidence_level) / 2) with
    | .error e => .error e
    | .ok mn =>
      match percentile result_vector (100 - (100 - confidence_level) / 2) with
      | .error e => .error e
      | .ok mx => .ok (mn, mx)

/-- The bootstrap loop of the two-sample `BasicStats::confidence_interval`
(BasicStats.hpp:328-336): iteration `i` draws independently seeded resamples
of the two inputs and records the difference of the statistic values. -/
def bootstrap_results2 (data1 data2 : List ℚ) (func : List ℚ → ℚ) (nmax : ℕ)
    (seeds1 seeds2 : ℕ → ℕ → ℕ) : List ℚ :=
  (List.range nmax).map fun i =>
    func (resample data1 (seeds1 i)) - func (resample data2 (seeds2 i))

/-- Embedding of the two-sample overload of `BasicStats::confidence_interval`
(BasicStats.hpp:321-340). -/
def confidence_interval2 (data1 data2 : List ℚ) (func : List ℚ → ℚ)
    (confidence_level : ℚ) (nmax : ℕ) (seeds1 seeds2 : ℕ → ℕ → ℕ) :
    Except String (ℚ × ℚ) :=
  if data1 = [] ∨ data2 = [] then .ok (0, 0)
  else if confidence_level ≤ 0 ∨ 100 ≤ confidence_level then
    .error ("Confidence level must be between 0 and 1.")
  else
    let result_vector := bootstrap_results2 data1 data2 func nmax seeds1 seeds2
    match percentile result_vector ((100 - confidence_level) / 2) with
    | .error e => .error e
    | .ok mn =>
      match percentile result_vector (100 - (100 - confidence_level) / 2) with
      | .error e => .error e
      | .ok mx => .ok (mn, mx)

/-! ### Helper lemmas about sorted lists and `getD` -/

lemma sorted_getD_mono {l : List ℚ} (hs : l.Sorted (· ≤ ·)) {i j : ℕ}
    (hij : i ≤ j) (hj : j < l.length) : l.getD i 0 ≤ l.getD j 0 := by
  have hi : i < l.length := lt_of_le_of_lt hij hj
  rw [List.getD_eq_getElem l 0 hi, List.getD_eq_getElem l 0 hj]
  have h := hs.rel_get_of_le (show (⟨i, hi⟩ : Fin l.length) ≤ ⟨j, hj⟩ from hij)
  simpa using h

lemma getD_mem {l : List ℚ} {i : ℕ} (h : i < l.length) : l.getD i 0 ∈ l := by
  rw [List.getD_eq_getElem l 0 h]
  exact List.getElem_mem h

lemma mem_getD {l : List ℚ} {x : ℚ} (h : x ∈ l) :
    ∃ i, ∃ _ : i < l.length, l.getD i 0 = x := by
  obtain ⟨i, hi, hx⟩ := List.mem_iff_getElem.mp h
  exact ⟨i, hi, by rw [List.getD_eq_getElem l 0 hi, hx]⟩

lemma length_sort (l : List ℚ) : (l.insertionSort (· ≤ ·)).length = l.length :=
  (List.perm_insertionSort (· ≤ ·) l).length_eq

/-! ### Helper lemmas about `resample` -/

lemma resample_length (data : List ℚ) (draw : ℕ → ℕ) :
    (resample data draw).length = data.length := by
  by_cases hd : data = []
  · simp [resample, hd]
  · simp [resample, hd]

lemma resample_mem {data : List ℚ} {draw : ℕ → ℕ} (h : ∀ i, draw i < data.length)
    {x : ℚ} (hx : x ∈ resample data draw) : x ∈ data := by
  by_cases hd : data = []
  · simp [resample, hd] at hx
  · rw [resample, if_neg hd] at hx
    obtain ⟨i, _, hxe⟩ := List.mem_map.mp hx
    exact hxe ▸ getD_mem (h i)

/-! ### Helper lemmas about `interp_at` -/

lemma interp_at_shape {l : List ℚ} {r : ℚ} (h0 : 0 ≤ r) (h1 : r ≤ (l.length : ℚ) - 1) :
    ⌈r⌉₊ < l.length ∧ ⌊r⌋₊ < l.length ∧ 1 ≤ l.length := by
  have hlen : 1 ≤ l.length := by
    by_contra hl
    push_neg at hl
    have hz : l.length = 0 := Nat.lt_one_iff.mp hl
    rw [hz] at h1
    push_cast at h1
    linarith
  have hceil : ⌈r⌉₊ ≤ l.length - 1 := by
    rw [Nat.ceil_le, Nat.cast_sub hlen, Nat.cast_one]
    exact h1
  have hc : ⌈r⌉₊ < l.length := lt_of_le_of_lt hceil (Nat.sub_lt hlen one_pos)
  exact ⟨hc, lt_of_le_of_lt (Nat.floor_le_ceil r) hc, hlen⟩

lemma interp_at_eq {l : List ℚ} {r : ℚ} (h0 : 0 ≤ r) (h1 : r ≤ (l.length : ℚ) - 1) :
    interp_at l r =
      l.getD ⌊r⌋₊ 0 + (r - (⌊r⌋₊ : ℚ)) * (l.getD ⌈r⌉₊ 0 - l.getD ⌊r⌋₊ 0) := by
  obtain ⟨hc, -, -⟩ := interp_at_shape h0 h1
  simp only [interp_at]
  rw [if_neg (not_le.mpr hc)]

lemma interp_at_ge {l : List ℚ} {r : ℚ} (hs : l.Sorted (· ≤ ·)) (h0 : 0 ≤ r)
    (h1 : r ≤ (l.length : ℚ) - 1) : l.getD ⌊r⌋₊ 0 ≤ interp_at l r := by
  obtain ⟨hc, -, -⟩ := interp_at_shape h0 h1
  rw [interp_at_eq h0 h1]
  have hw : 0 ≤ r - (⌊r⌋₊ : ℚ) := sub_nonneg.mpr (Nat.floor_le h0)
  have hab : l.getD ⌊r⌋₊ 0 ≤ l.getD ⌈r⌉₊ 0 :=
    sorted_getD_mono hs (Nat.floor_le_ceil r) hc
  nlinarith

lemma interp_at_le {l : List ℚ} {r : ℚ} (hs : l.Sorted (· ≤ ·)) (h0 : 0 ≤ r)
    (h1 : r ≤ (l.length : ℚ) - 1) : interp_at l r ≤ l.getD ⌈r⌉₊ 0 := by
  obtain ⟨hc, -, -⟩ := interp_at_shape h0 h1
  rw [interp_at_eq h0 h1]
  have hw : 0 ≤ r - (⌊r⌋₊ : ℚ) := sub_nonneg.mpr (Nat.floor_le h0)
  have hw1 : r - (⌊r⌋₊ : ℚ) ≤ 1 := by
    have := Nat.lt_floor_add_one r
    linarith
  have hab : l.getD ⌊r⌋₊ 0 ≤ l.getD ⌈r⌉₊ 0 :=
    sorted_getD_mono hs (Nat.floor_le_ceil r) hc
  nlinarith

lemma interp_at_mono {l : List ℚ} {r s : ℚ} (hs : l.Sorted (· ≤ ·)) (h0 : 0 ≤ r)
    (hrs : r ≤ s) (h1 : s ≤ (l.length : ℚ) - 1) : interp_at l r ≤ interp_at l s := by
  have h0s : 0 ≤ s := le_trans h0 hrs
  have h1r : r ≤ (l.length : ℚ) - 1 := le_trans hrs h1
  obtain ⟨hcs, hfs, hlen⟩ := interp_at_shape h0s h1
  obtain ⟨hcr, hfr, -⟩ := interp_at_shape h0 h1r
  have hfl : ⌊r⌋₊ ≤ ⌊s⌋₊ := Nat.floor_mono hrs
  rcases eq_or_lt_of_le hfl with heq | hlt
  · by_cases hrk : r = (⌊r⌋₊ : ℚ)
    · have h2 : interp_at l r = l.getD ⌊r⌋₊ 0 := by
        rw [interp_at_eq h0 h1r, ← hrk]
        ring
      rw [h2, heq]
      exact interp_at_ge hs h0s h1
    · have hkr : (⌊r⌋₊ : ℚ) < r := lt_of_le_of_ne (Nat.floor_le h0) fun h => hrk h.symm
      have hks : (⌊s⌋₊ : ℚ) < s := by
        rw [← heq]
        linarith
      have hcr1 : ⌈r⌉₊ = ⌊r⌋₊ + 1 := by
        refine le_antisymm (Nat.ceil_le_floor_add_one r) (Nat.succ_le_of_lt ?_)
        exact_mod_cast lt_of_lt_of_le hkr (Nat.le_ceil r)
      have hcs1 : ⌈s⌉₊ = ⌊s⌋₊ + 1 := by
        refine le_antisymm (Nat.ceil_le_floor_add_one s) (Nat.succ_le_of_lt ?_)
        exact_mod_cast lt_of_lt_of_le hks (Nat.le_ceil s)
      have hidx : ⌊s⌋₊ + 1 < l.length := by
        rw [← hcs1]
        exact hcs
      have hab : l.getD ⌊s⌋₊ 0 ≤ l.getD (⌊s⌋₊ + 1) 0 :=
        sorted_getD_mono hs (Nat.le_succ _) hidx
      rw [interp_at_eq h0 h1r, interp_at_eq h0s h1, hcr1, hcs1, heq]
      nlinarith
  · have h2 : interp_at l r ≤ l.getD ⌈r⌉₊ 0 := interp_at_le hs h0 h1r
    have h3 : l.getD ⌈r⌉₊ 0 ≤ l.getD ⌊s⌋₊ 0 := by
      apply sorted_getD_mono hs ?_ hfs
      have := Nat.ceil_le_floor_add_one r
      omega
    have h4 : l.getD ⌊s⌋₊ 0 ≤ interp_at l s := interp_at_ge hs h0s h1
    linarith

/-! ### Helper lemmas about `percentile` -/

lemma percentile_eq_interp {data : List ℚ} {p : ℚ} (hd : data ≠ []) (h0 : 0 ≤ p)
    (h1 : p ≤ 100) :
    percentile data p =
      .ok (interp_at (data.insertionSort (· ≤ ·))
        ((p / 100) * ((data.length - 1 : ℕ) : ℚ))) := by
  have hnot : ¬(p < 0 ∨ 100 < p) := by
    push_neg
    exact ⟨h0, h1⟩
  simp only [percentile, if_neg hd, if_neg hnot, length_sort]

lemma percentile_le_percentile (data : List ℚ) {p q : ℚ} (h0 : 0 ≤ p) (hpq : p ≤ q)
    (h1 : q ≤ 100) :
    ∃ lo hi, percentile data p = .ok lo ∧ percentile data q = .ok hi ∧ lo ≤ hi := by
  by_cases hd : data = []
  · subst hd
    exact ⟨0, 0, by simp [percentile], by simp [percentile], le_refl 0⟩
  · have h0q : 0 ≤ q := le_trans h0 hpq
    have h1p : p ≤ 100 := le_trans hpq h1
    have hlen : 1 ≤ data.length := List.length_pos.mpr hd
    have hsort : (data.insertionSort (· ≤ ·)).Sorted (· ≤ ·) :=
      List.sorted_insertionSort (· ≤ ·) data
    have hlcast : ((data.insertionSort (· ≤ ·)).length : ℚ) = (data.length : ℚ) := by
      rw [length_sort]
    have hcast : ((data.length - 1 : ℕ) : ℚ) = ((data.insertionSort (· ≤ ·)).length : ℚ) - 1 := by
      rw [hlcast, Nat.cast_sub hlen, Nat.cast_one]
    have hl1 : (1 : ℚ) ≤ ((data.insertionSort (· ≤ ·)).length : ℚ) := by
      rw [hlcast]
      exact_mod_cast hlen
    refine ⟨_, _, percentile_eq_interp hd h0 h1p, percentile_eq_interp hd h0q h1, ?_⟩
    apply interp_at_mono hsort
    · exact mul_nonneg (div_nonneg h0 (by norm_num)) (Nat.cast_nonneg _)
    · apply mul_le_mul_of_nonneg_right ?_ (Nat.cast_nonneg _)
      linarith
    · rw [hcast]
      have hnn : (0 : ℚ) ≤ ((data.insertionSort (· ≤ ·)).length : ℚ) - 1 := by linarith
      nlinarith

lemma percentile_is_ok (data : List ℚ) {p : ℚ} (h0 : 0 ≤ p) (h1 : p ≤ 100) :
    ∃ v, percentile data p = .ok v := by
  obtain ⟨lo, -, h, -, -⟩ := percentile_le_percentile data h0 (le_refl p) h1
  exact ⟨lo, h⟩

/-! ### Claim theorems -/

/-- C8: For every sample (empty or not) and every index stream produced by the
seeded generator (each drawn index lies in `[0, length)`, as the C++
distribution guarantees), `resample` returns a sequence of the same length as
the sample whose every element is a member of the input; in particular
`resample [] = []` and `resample [a] = [a]`. -/
theorem resample_length_membership :
    (∀ draw : ℕ → ℕ, resample [] draw = []) ∧
    (∀ (data : List ℚ) (draw : ℕ → ℕ), (∀ i, draw i < data.length) →
      (resample data draw).length = data.length ∧ ∀ x ∈ resample data draw, x ∈ data) ∧
    (∀ (a : ℚ) (draw : ℕ → ℕ), (∀ i, draw i < 1) → resample [a] draw = [a]) := by
  refine ⟨fun draw => by simp [resample],
    fun data draw h => ⟨resample_length data draw, fun x hx => resample_mem h hx⟩,
    fun a draw h => ?_⟩
  have h0 : draw 0 = 0 := Nat.lt_one_iff.mp (h 0)
  rw [resample, if_neg (by simp : ¬([a] = []))]
  simp [List.range_succ, h0]

/-- Witness for C8 at concrete inputs. -/
theorem resample_length_membership_witness :
    (resample [3, 7] (fun _ => 0)).length = ([3, 7] : List ℚ).length ∧
    resample [(7 : ℚ)] (fun _ => 0) = [7] ∧
    resample [] (fun _ => 1) = [] :=
  ⟨(resample_length_membership.2.1 [3, 7] (fun _ => 0) (fun i => by norm_num)).1,
   resample_length_membership.2.2 7 (fun _ => 0) (fun i => Nat.one_pos),
   resample_length_membership.1 (fun _ => 1)⟩

/-- C4: With any empty input sample, both confidence-interval variants return
exactly `(0, 0)` for every statistic function, every confidence level
(including levels outside `(0, 100)`), every iteration count and every seed
stream, and raise no error: the result is `.ok` and is independent of the
statistic function and of the seeds, so the statistic is never invoked and no
resampling iteration is performed. -/
theorem confidence_interval_empty_short_circuit :
    ∀ (func : List ℚ → ℚ) (confidence_level : ℚ) (nmax : ℕ)
      (seeds seeds1 seeds2 : ℕ → ℕ → ℕ) (data : List ℚ),
      confidence_interval [] func confidence_level nmax seeds = .ok (0, 0) ∧
      confidence_interval2 [] data func confidence_level nmax seeds1 seeds2 = .ok (0, 0) ∧
      confidence_interval2 data [] func confidence_level nmax seeds1 seeds2 = .ok (0, 0) := by
  intro func confidence_level nmax seeds seeds1 seeds2 data
  refine ⟨?_, ?_, ?_⟩ <;> simp [confidence_interval, confidence_interval2]

/-- C10: `coeff_of_variation` is guarded only by the empty-sample check: on
every non-empty sample it equals `stdev data / mean data` with no guard on the
divisor, and the concrete non-empty sample `[1, -1]` has mean `0`, so the
division is reached there with divisor `0`. -/
theorem coeff_of_variation_unguarded_division :
    (∀ (sqrt : ℚ → ℚ) (data : List ℚ), data ≠ [] →
      coeff_of_variation sqrt data = stdev sqrt data / mean data) ∧
    ([(1 : ℚ), -1] ≠ ([] : List ℚ) ∧ mean [(1 : ℚ), -1] = 0) := by
  refine ⟨fun sqrt data h => by rw [coeff_of_variation, if_neg h], by simp, ?_⟩
  norm_num [mean, sum]

/-- Witness for C10 at the concrete sample `[1, -1]` with `sqrt` instantiated
by the identity. -/
theorem coeff_of_variation_unguarded_division_witness :
    coeff_of_variation id [(1 : ℚ), -1] = stdev id [(1 : ℚ), -1] / mean [(1 : ℚ), -1] ∧
    mean [(1 : ℚ), -1] = 0 :=
  ⟨coeff_of_variation_unguarded_division.1 id [(1 : ℚ), -1] (by simp),
   coeff_of_variation_unguarded_division.2.2⟩

/-- C2 counterexample: on the empty sample the range check is never reached:
`percentile [] (-5)` returns `0` rather than raising the out-of-range error,
although `-5 < 0`; the empty check at BasicStats.hpp:202 precedes the range
check at BasicStats.hpp:203. -/
theorem percentile_empty_skips_range_check_cex :
    percentile ([] : List ℚ) (-5) = .ok 0 ∧ (-5 : ℚ) < 0 := by
  constructor
  · rfl
  · norm_num

/-- C2 amended: for every NON-empty sample, `percentile` raises the
out-of-range error whenever `p < 0` or `p > 100` (before any computation on
the sample's elements), while for the empty sample it returns `0` regardless
of `p`, the empty check preceding the range check. -/
theorem percentile_out_of_range_nonempty :
    (∀ (data : List ℚ) (p : ℚ), data ≠ [] → (p < 0 ∨ 100 < p) →
      percentile data p = .error ("Percentile must be between 0 and 100.")) ∧
    (∀ p : ℚ, percentile [] p = .ok 0) := by
  constructor
  · intro data p hd hp
    rw [percentile, if_neg hd, if_pos hp]
  · intro p
    rfl

/-- Witness for C2's amended statement at concrete inputs. -/
theorem percentile_out_of_range_nonempty_witness :
    percentile [(1 : ℚ)] (-5) = .error ("Percentile must be between 0 and 100.") ∧
    percentile [(1 : ℚ)] 200 = .error ("Percentile must be between 0 and 100.") ∧
    percentile ([] : List ℚ) 200 = .ok 0 :=
  ⟨percentile_out_of_range_nonempty.1 [(1 : ℚ)] (-5) (by simp) (Or.inl (by norm_num)),
   percentile_out_of_range_nonempty.1 [(1 : ℚ)] 200 (by simp) (Or.inr (by norm_num)),
   percentile_out_of_range_nonempty.2 200⟩

/-- C9 counterexample: the caller cannot deterministically seed the resampling
performed by the estimator, so two runs of `confidence_interval` on the same
caller-supplied inputs need not return the same pair.  Both overloads call
`resample(data)` with the defaulted seed `std::random_device{}()`
(BasicStats.hpp:301 and 330-331) and expose no seed parameter, so the
per-iteration index streams below are ambient entropy outside the caller's
control: on the identical caller-visible input
(`data = [1, 2]`, `func = sum`, `confidence_level = 50`, `nmax = 2`) the two
runs return `(2, 2)` and `(4, 4)`, which differ. -/
theorem confidence_interval_not_caller_seeded_cex :
    confidence_interval [1, 2] (fun l => sum l) 50 2 (fun _ _ => 0) = .ok (2, 2) ∧
    confidence_interval [1, 2] (fun l => sum l) 50 2 (fun _ _ => 1) = .ok (4, 4) ∧
    ((2 : ℚ), (2 : ℚ)) ≠ ((4 : ℚ), (4 : ℚ)) := by
  have hf14 : ⌊(1 : ℚ) / 4⌋₊ = 0 := by
    rw [Nat.floor_eq_zero]
    norm_num
  have hc14 : ⌈(1 : ℚ) / 4⌉₊ = 1 := by
    rw [Nat.ceil_eq_iff one_ne_zero]
    norm_num
  have hf34 : ⌊(3 : ℚ) / 4⌋₊ = 0 := by
    rw [Nat.floor_eq_zero]
    norm_num
  have hc34 : ⌈(3 : ℚ) / 4⌉₊ = 1 := by
    rw [Nat.ceil_eq_iff one_ne_zero]
    norm_num
  refine ⟨?_, ?_, by simp⟩
  · have hrs : resample [1, 2] (fun _ => 0) = [1, 1] := by
      rw [resample, if_neg (by simp : ¬([1, 2] : List ℚ) = [])]
      norm_num [List.range_succ]
    have hbr : bootstrap_results [1, 2] (fun l => sum l) 2 (fun _ _ => 0) = [2, 2] := by
      norm_num [bootstrap_results, List.range_succ, hrs, sum]
    have hp1 : percentile [2, 2] ((100 - 50) / 2) = .ok 2 := by
      rw [percentile, if_neg (by simp : ¬([2, 2] : List ℚ) = []),
        if_neg (by norm_num : ¬((100 - (50 : ℚ)) / 2 < 0 ∨ 100 < (100 - (50 : ℚ)) / 2))]
      norm_num [interp_at, List.insertionSort, List.orderedInsert, hf14, hc14]
    have hp2 : percentile [2, 2] (100 - (100 - 50) / 2) = .ok 2 := by
      rw [percentile, if_neg (by simp : ¬([2, 2] : List ℚ) = []),
        if_neg (by norm_num :
          ¬(100 - (100 - (50 : ℚ)) / 2 < 0 ∨ 100 < 100 - (100 - (50 : ℚ)) / 2))]
      norm_num [interp_at, List.insertionSort, List.orderedInsert, hf34, hc34]
    rw [confidence_interval, if_neg (by simp : ¬([1, 2] : List ℚ) = []),
      if_neg (by norm_num : ¬((50 : ℚ) ≤ 0 ∨ 100 ≤ (50 : ℚ)))]
    simp only [hbr, hp1, hp2]
  · have hrs : resample [1, 2] (fun _ => 1) = [2, 2] := by
      rw [resample, if_neg (by simp : ¬([1, 2] : List ℚ) = [])]
      norm_num [List.range_succ]
    have hbr : bootstrap_results [1, 2] (fun l => sum l) 2 (fun _ _ => 1) = [4, 4] := by
      norm_num [bootstrap_results, List.range_succ, hrs, sum]
    have hp1 : percentile [4, 4] ((100 - 50) / 2) = .ok 4 := by
      rw [percentile, if_neg (by simp : ¬([4, 4] : List ℚ) = []),
        if_neg (by norm_num : ¬((100 - (50 : ℚ)) / 2 < 0 ∨ 100 < (100 - (50 : ℚ)) / 2))]
      norm_num [interp_at, List.insertionSort, List.orderedInsert, hf14, hc14]
    have hp2 : percentile [4, 4] (100 - (100 - 50) / 2) = .ok 4 := by
      rw [percentile, if_neg (by simp : ¬([4, 4] : List ℚ) = []),
        if_neg (by norm_num :
          ¬(100 - (100 - (50 : ℚ)) / 2 < 0 ∨ 100 < 100 - (100 - (50 : ℚ)) / 2))]
      norm_num [interp_at, List.insertionSort, List.orderedInsert, hf34, hc34]
    rw [confidence_interval, if_neg (by simp : ¬([1, 2] : List ℚ) = []),
      if_neg (by norm_num : ¬((50 : ℚ) ≤ 0 ∨ 100 ≤ (50 : ℚ)))]
    simp only [hbr, hp1, hp2]

/-- C9 amended: both confidence-interval variants are deterministic only
relative to the per-iteration resampling index streams: two runs whose streams
agree on the `nmax` iterations actually performed return identical results.
The estimator's own API gives the caller no way to fix those streams — each
iteration seeds `resample` from `std::random_device` — so reproducibility
holds with respect to the ambient entropy, not as a caller-accessible
capability (see the counterexample above). -/
theorem confidence_interval_reproducible :
    ∀ (data data1 data2 : List ℚ) (func : List ℚ → ℚ) (confidence_level : ℚ)
      (nmax : ℕ) (seeds seeds' s1 s1' s2 s2' : ℕ → ℕ → ℕ),
      (∀ i, i < nmax → seeds i = seeds' i) →
      (∀ i, i < nmax → s1 i = s1' i) →
      (∀ i, i < nmax → s2 i = s2' i) →
      confidence_interval data func confidence_level nmax seeds =
        confidence_interval data func confidence_level nmax seeds' ∧
      confidence_interval2 data1 data2 func confidence_level nmax s1 s2 =
        confidence_interval2 data1 data2 func confidence_level nmax s1' s2' := by
  intro data data1 data2 func confidence_level nmax seeds seeds' s1 s1' s2 s2' hseeds hs1 hs2
  have hbr : bootstrap_results data func nmax seeds =
      bootstrap_results data func nmax seeds' := by
    unfold bootstrap_results
    apply List.map_congr_left
    intro a ha
    rw [hseeds a (List.mem_range.mp ha)]
  have hbr2 : bootstrap_results2 data1 data2 func nmax s1 s2 =
      bootstrap_results2 data1 data2 func nmax s1' s2' := by
    unfold bootstrap_results2
    apply List.map_congr_left
    intro a ha
    rw [hs1 a (List.mem_range.mp ha), hs2 a (List.mem_range.mp ha)]
  constructor
  · simp only [confidence_interval, hbr]
  · simp only [confidence_interval2, hbr2]

/-- Witness for C9's amended statement at concrete inputs: the paired seed
streams are distinct functions (they differ from iteration 2 onwards) that
agree on the `nmax = 2` iterations performed, and the common result of the
single-sample runs is evaluated concretely to `.ok (1, 1)`. -/
theorem confidence_interval_reproducible_witness :
    confidence_interval [1] (fun l => sum l) 50 2 (fun _ _ => 0) =
      confidence_interval [1] (fun l => sum l) 50 2 (fun i _ => if 2 ≤ i then 7 else 0) ∧
    confidence_interval2 [1] [2] (fun l => sum l) 50 2 (fun _ _ => 0) (fun _ _ => 0) =
      confidence_interval2 [1] [2] (fun l => sum l) 50 2
        (fun i _ => if 2 ≤ i then 5 else 0) (fun i _ => if 2 ≤ i then 3 else 0) ∧
    confidence_interval [1] (fun l => sum l) 50 2 (fun _ _ => 0) = .ok (1, 1) := by
  have h := confidence_interval_reproducible [1] [1] [2] (fun l => sum l) 50 2
    (fun _ _ => 0) (fun i _ => if 2 ≤ i then 7 else 0)
    (fun _ _ => 0) (fun i _ => if 2 ≤ i then 5 else 0)
    (fun _ _ => 0) (fun i _ => if 2 ≤ i then 3 else 0)
    (fun i hi => funext fun _ => (if_neg (by omega)).symm)
    (fun i hi => funext fun _ => (if_neg (by omega)).symm)
    (fun i hi => funext fun _ => (if_neg (by omega)).symm)
  have hf14 : ⌊(1 : ℚ) / 4⌋₊ = 0 := by
    rw [Nat.floor_eq_zero]
    norm_num
  have hc14 : ⌈(1 : ℚ) / 4⌉₊ = 1 := by
    rw [Nat.ceil_eq_iff one_ne_zero]
    norm_num
  have hf34 : ⌊(3 : ℚ) / 4⌋₊ = 0 := by
    rw [Nat.floor_eq_zero]
    norm_num
  have hc34 : ⌈(3 : ℚ) / 4⌉₊ = 1 := by
    rw [Nat.ceil_eq_iff one_ne_zero]
    norm_num
  have hrs : resample [1] (fun _ => 0) = [1] := by
    rw [resample, if_neg (by simp : ¬([1] : List ℚ) = [])]
    norm_num [List.range_succ]
  have hbr : bootstrap_results [1] (fun l => sum l) 2 (fun _ _ => 0) = [1, 1] := by
    norm_num [bootstrap_results, List.range_succ, hrs, sum]
  have hp1 : percentile [1, 1] ((100 - 50) / 2) = .ok 1 := by
    rw [percentile, if_neg (by simp : ¬([1, 1] : List ℚ) = []),
      if_neg (by norm_num : ¬((100 - (50 : ℚ)) / 2 < 0 ∨ 100 < (100 - (50 : ℚ)) / 2))]
    norm_num [interp_at, List.insertionSort, List.orderedInsert, hf14, hc14]
  have hp2 : percentile [1, 1] (100 - (100 - 50) / 2) = .ok 1 := by
    rw [percentile, if_neg (by simp : ¬([1, 1] : List ℚ) = []),
      if_neg (by norm_num :
        ¬(100 - (100 - (50 : ℚ)) / 2 < 0 ∨ 100 < 100 - (100 - (50 : ℚ)) / 2))]
    norm_num [interp_at, List.insertionSort, List.orderedInsert, hf34, hc34]
  refine ⟨h.1, h.2, ?_⟩
  rw [confidence_interval, if_neg (by simp : ¬([1] : List ℚ) = []),
    if_neg (by norm_num : ¬((50 : ℚ) ≤ 0 ∨ 100 ≤ (50 : ℚ)))]
  simp only [hbr, hp1, hp2]

/-- C1 (intended loop behaviour): in the embedding of the bootstrap loop the
accumulated results collection has exact length `nmax`, and its `i`-th entry
is the statistic of the `i`-th fresh resample (the difference of the two
statistic values in the two-sample variant).  The C++ single-sample loop body
itself misspells the resample local (`resamepled_data` declared,
`resampled_data` used) and does not compile; this theorem certifies the
evident intent that the claim and the spec describe. -/
theorem bootstrap_results_per_iteration :
    ∀ (data data1 data2 : List ℚ) (func : List ℚ → ℚ) (nmax : ℕ)
      (seeds s1 s2 : ℕ → ℕ → ℕ),
      (bootstrap_results data func nmax seeds).length = nmax ∧
      (bootstrap_results2 data1 data2 func nmax s1 s2).length = nmax ∧
      (∀ i, i < nmax → (bootstrap_results data func nmax seeds).getD i 0 =
        func (resample data (seeds i))) ∧
      (∀ i, i < nmax → (bootstrap_results2 data1 data2 func nmax s1 s2).getD i 0 =
        func (resample data1 (s1 i)) - func (resample data2 (s2 i))) := by
  intro data data1 data2 func nmax seeds s1 s2
  refine ⟨by simp [bootstrap_results], by simp [bootstrap_results2], ?_, ?_⟩
  · intro i hi
    have hlen : i < (bootstrap_results data func nmax seeds).length := by
      simp [bootstrap_results, hi]
    rw [List.getD_eq_getElem _ 0 hlen]
    simp [bootstrap_results]
  · intro i hi
    have hlen : i < (bootstrap_results2 data1 data2 func nmax s1 s2).length := by
      simp [bootstrap_results2, hi]
    rw [List.getD_eq_getElem _ 0 hlen]
    simp [bootstrap_results2]

/-- Witness for C1's intended-loop theorem at concrete inputs. -/
theorem bootstrap_results_per_iteration_witness :
    (bootstrap_results [1, 2] (fun l => sum l) 2 (fun _ _ => 0)).length = 2 ∧
    (bootstrap_results [1, 2] (fun l => sum l) 2 (fun _ _ => 0)).getD 1 0 =
      (fun l => sum l) (resample [1, 2] ((fun _ _ => 0) 1)) := by
  have h := bootstrap_results_per_iteration [1, 2] [1] [1] (fun l => sum l) 2
    (fun _ _ => 0) (fun _ _ => 0) (fun _ _ => 0)
  exact ⟨h.1, h.2.2.1 1 (by norm_num)⟩

/-- C6: on every non-empty sample, `percentile data 0` returns the minimum
element of the sample and `percentile data 100` returns the maximum element. -/
theorem percentile_extremes :
    ∀ data : List ℚ, data ≠ [] →
      (∃ m, percentile data 0 = .ok m ∧ m ∈ data ∧ ∀ x ∈ data, m ≤ x) ∧
      (∃ M, percentile data 100 = .ok M ∧ M ∈ data ∧ ∀ x ∈ data, x ≤ M) := by
  intro data hd
  have hlen : 1 ≤ data.length := List.length_pos.mpr hd
  have hsort : (data.insertionSort (· ≤ ·)).Sorted (· ≤ ·) :=
    List.sorted_insertionSort (· ≤ ·) data
  have hperm : (data.insertionSort (· ≤ ·)).Perm data :=
    List.perm_insertionSort (· ≤ ·) data
  have hslen : (data.insertionSort (· ≤ ·)).length = data.length := length_sort data
  have hl1 : (1 : ℚ) ≤ ((data.insertionSort (· ≤ ·)).length : ℚ) := by
    rw [hslen]
    exact_mod_cast hlen
  constructor
  · have hp0 := percentile_eq_interp hd (le_refl (0 : ℚ)) (by norm_num)
    have hrank : ((0 : ℚ) / 100) * ((data.length - 1 : ℕ) : ℚ) = 0 := by norm_num
    rw [hrank] at hp0
    have hval : interp_at (data.insertionSort (· ≤ ·)) 0 =
        (data.insertionSort (· ≤ ·)).getD 0 0 := by
      rw [interp_at_eq (le_refl (0 : ℚ)) (by linarith)]
      norm_num
    rw [hval] at hp0
    refine ⟨(data.insertionSort (· ≤ ·)).getD 0 0, hp0, ?_, ?_⟩
    · exact hperm.mem_iff.mp (getD_mem (by omega))
    · intro x hx
      obtain ⟨i, hi, hgi⟩ := mem_getD (hperm.mem_iff.mpr hx)
      rw [← hgi]
      exact sorted_getD_mono hsort (Nat.zero_le i) hi
  · have hp100 := percentile_eq_interp hd (by norm_num : (0 : ℚ) ≤ 100) (le_refl (100 : ℚ))
    have hrank : ((100 : ℚ) / 100) * ((data.length - 1 : ℕ) : ℚ) =
        ((data.length - 1 : ℕ) : ℚ) := by norm_num
    rw [hrank] at hp100
    have hcast : ((data.length - 1 : ℕ) : ℚ) =
        ((data.insertionSort (· ≤ ·)).length : ℚ) - 1 := by
      rw [hslen, Nat.cast_sub hlen, Nat.cast_one]
    have hval : interp_at (data.insertionSort (· ≤ ·)) ((data.length - 1 : ℕ) : ℚ) =
        (data.insertionSort (· ≤ ·)).getD (data.length - 1) 0 := by
      rw [interp_at_eq (Nat.cast_nonneg _) (le_of_eq hcast), Nat.floor_natCast,
        Nat.ceil_natCast]
      ring
    rw [hval] at hp100
    refine ⟨(data.insertionSort (· ≤ ·)).getD (data.length - 1) 0, hp100, ?_, ?_⟩
    · exact hperm.mem_iff.mp (getD_mem (by omega))
    · intro x hx
      obtain ⟨i, hi, hgi⟩ := mem_getD (hperm.mem_iff.mpr hx)
      rw [← hgi]
      exact sorted_getD_mono hsort (by omega) (by omega)

/-- Witness for C6 at the concrete sample `[3, 1, 2]`. -/
theorem percentile_extremes_witness :
    (∃ m, percentile [3, 1, 2] 0 = .ok m ∧ m ∈ [(3 : ℚ), 1, 2] ∧
      ∀ x ∈ [(3 : ℚ), 1, 2], m ≤ x) ∧
    (∃ M, percentile [3, 1, 2] 100 = .ok M ∧ M ∈ [(3 : ℚ), 1, 2] ∧
      ∀ x ∈ [(3 : ℚ), 1, 2], x ≤ M) :=
  percentile_extremes [3, 1, 2] (by simp)

/-- C7: on every non-empty sample, odd or even length, `percentile data 50`
returns exactly `median data`. -/
theorem percentile_fifty_eq_median :
    ∀ data : List ℚ, data ≠ [] → percentile data 50 = .ok (median data) := by
  intro data hd
  have hlen : 1 ≤ data.length := List.length_pos.mpr hd
  have hslen : (data.insertionSort (· ≤ ·)).length = data.length := length_sort data
  rw [percentile_eq_interp hd (by norm_num : (0 : ℚ) ≤ 50) (by norm_num)]
  congr 1
  simp only [median, if_neg hd]
  by_cases hpar : data.length % 2 = 0
  · obtain ⟨m, hm⟩ : ∃ m, data.length = 2 * m := ⟨data.length / 2, by omega⟩
    have hm1 : 1 ≤ m := by omega
    have hmq : (1 : ℚ) ≤ (m : ℚ) := by exact_mod_cast hm1
    have hrank : ((50 : ℚ) / 100) * ((data.length - 1 : ℕ) : ℚ) = (m : ℚ) - 1 / 2 := by
      rw [hm]
      have h2 : (1 : ℕ) ≤ 2 * m := by omega
      have hc : ((2 * m - 1 : ℕ) : ℚ) = 2 * (m : ℚ) - 1 := by
        push_cast [Nat.cast_sub h2]
        ring
      rw [hc]
      ring
    have h0r : (0 : ℚ) ≤ (m : ℚ) - 1 / 2 := by linarith
    have h1r : (m : ℚ) - 1 / 2 ≤ ((data.insertionSort (· ≤ ·)).length : ℚ) - 1 := by
      rw [hslen, hm]
      push_cast
      linarith
    have hcastm : ((m - 1 : ℕ) : ℚ) = (m : ℚ) - 1 := by
      rw [Nat.cast_sub hm1, Nat.cast_one]
    have hfloor : ⌊(m : ℚ) - 1 / 2⌋₊ = m - 1 := by
      rw [Nat.floor_eq_iff h0r]
      rw [hcastm]
      constructor
      · linarith
      · linarith
    have hceil : ⌈(m : ℚ) - 1 / 2⌉₊ = m := by
      rw [Nat.ceil_eq_iff (by omega : m ≠ 0)]
      rw [hcastm]
      constructor
      · linarith
      · linarith
    rw [hrank, interp_at_eq h0r h1r, hfloor, hceil]
    rw [if_pos (show (data.insertionSort (· ≤ ·)).length % 2 = 0 by rw [hslen]; exact hpar)]
    rw [hslen, hm]
    have h2m : 2 * m / 2 = m := by omega
    rw [h2m, hcastm]
    ring
  · obtain ⟨m, hm⟩ : ∃ m, data.length = 2 * m + 1 := ⟨data.length / 2, by omega⟩
    have hrank : ((50 : ℚ) / 100) * ((data.length - 1 : ℕ) : ℚ) = (m : ℚ) := by
      rw [hm]
      have hc : (2 * m + 1 - 1 : ℕ) = 2 * m := by omega
      rw [hc]
      push_cast
      ring
    have h0r : (0 : ℚ) ≤ (m : ℚ) := Nat.cast_nonneg m
    have h1r : (m : ℚ) ≤ ((data.insertionSort (· ≤ ·)).length : ℚ) - 1 := by
      rw [hslen, hm]
      push_cast
      linarith
    rw [hrank, interp_at_eq h0r h1r, Nat.floor_natCast, Nat.ceil_natCast]
    rw [if_neg (show ¬(data.insertionSort (· ≤ ·)).length % 2 = 0 by rw [hslen]; exact hpar)]
    rw [hslen, hm]
    have h2m : (2 * m + 1) / 2 = m := by omega
    rw [h2m]
    ring

/-- Witness for C7 at an even-length and an odd-length concrete sample. -/
theorem percentile_fifty_eq_median_witness :
    percentile [1, 2, 3, 4] 50 = .ok (median [1, 2, 3, 4]) ∧
    percentile [1, 2, 3] 50 = .ok (median [1, 2, 3]) ∧
    median ([1, 2, 3, 4] : List ℚ) = 5 / 2 :=
  ⟨percentile_fifty_eq_median [1, 2, 3, 4] (by simp),
   percentile_fifty_eq_median [1, 2, 3] (by simp),
   by
    rw [median, if_neg (by simp : ¬([1, 2, 3, 4] : List ℚ) = [])]
    norm_num [List.insertionSort, List.orderedInsert]⟩

/-- C3: whenever either confidence-interval variant returns a pair `(lo, hi)`
(rather than raising), `lo ≤ hi`. -/
theorem confidence_interval_low_le_high :
    ∀ (data data1 data2 : List ℚ) (func : List ℚ → ℚ) (confidence_level : ℚ)
      (nmax : ℕ) (seeds s1 s2 : ℕ → ℕ → ℕ) (lo hi lo2 hi2 : ℚ),
      (confidence_interval data func confidence_level nmax seeds = .ok (lo, hi) →
        lo ≤ hi) ∧
      (confidence_interval2 data1 data2 func confidence_level nmax s1 s2 = .ok (lo2, hi2) →
        lo2 ≤ hi2) := by
  intro data data1 data2 func level nmax seeds s1 s2 lo hi lo2 hi2
  constructor
  · intro h
    simp only [confidence_interval] at h
    by_cases hd : data = []
    · rw [if_pos hd] at h
      simp only [Except.ok.injEq, Prod.mk.injEq] at h
      obtain ⟨h1, h2⟩ := h
      rw [← h1, ← h2]
    · rw [if_neg hd] at h
      by_cases hg : level ≤ 0 ∨ 100 ≤ level
      · rw [if_pos hg] at h
        exact absurd h (by simp)
      · rw [if_neg hg] at h
        push_neg at hg
        obtain ⟨hg0, hg100⟩ := hg
        obtain ⟨lo', hi', hplo, hphi, hle⟩ :=
          percentile_le_percentile (bootstrap_results data func nmax seeds)
            (show (0 : ℚ) ≤ (100 - level) / 2 by linarith)
            (show (100 - level) / 2 ≤ 100 - (100 - level) / 2 by linarith)
            (show 100 - (100 - level) / 2 ≤ 100 by linarith)
        simp only [hplo, hphi, Except.ok.injEq, Prod.mk.injEq] at h
        obtain ⟨h1, h2⟩ := h
        rw [← h1, ← h2]
        exact hle
  · intro h
    simp only [confidence_interval2] at h
    by_cases hd : data1 = [] ∨ data2 = []
    · rw [if_pos hd] at h
      simp only [Except.ok.injEq, Prod.mk.injEq] at h
      obtain ⟨h1, h2⟩ := h
      rw [← h1, ← h2]
    · rw [if_neg hd] at h
      by_cases hg : level ≤ 0 ∨ 100 ≤ level
      · rw [if_pos hg] at h
        exact absurd h (by simp)
      · rw [if_neg hg] at h
        push_neg at hg
        obtain ⟨hg0, hg100⟩ := hg
        obtain ⟨lo', hi', hplo, hphi, hle⟩ :=
          percentile_le_percentile (bootstrap_results2 data1 data2 func nmax s1 s2)
            (show (0 : ℚ) ≤ (100 - level) / 2 by linarith)
            (show (100 - level) / 2 ≤ 100 - (100 - level) / 2 by linarith)
            (show 100 - (100 - level) / 2 ≤ 100 by linarith)
        simp only [hplo, hphi, Except.ok.injEq, Prod.mk.injEq] at h
        obtain ⟨h1, h2⟩ := h
        rw [← h1, ← h2]
        exact hle

/-- Witness for C3: concrete runs of both variants that return, with the
returned pairs evaluated and the theorem applied to them. -/
theorem confidence_interval_low_le_high_witness :
    confidence_interval [1, 2] (fun l => sum l) 50 2 (fun _ _ => 0) = .ok (2, 2) ∧
    confidence_interval2 [1] [1] (fun l => sum l) 50 2 (fun _ _ => 0) (fun _ _ => 0) =
      .ok (0, 0) ∧
    ((2 : ℚ) ≤ 2 ∧ (0 : ℚ) ≤ 0) := by
  have hf14 : ⌊(1 : ℚ) / 4⌋₊ = 0 := by
    rw [Nat.floor_eq_zero]
    norm_num
  have hc14 : ⌈(1 : ℚ) / 4⌉₊ = 1 := by
    rw [Nat.ceil_eq_iff one_ne_zero]
    norm_num
  have hf34 : ⌊(3 : ℚ) / 4⌋₊ = 0 := by
    rw [Nat.floor_eq_zero]
    norm_num
  have hc34 : ⌈(3 : ℚ) / 4⌉₊ = 1 := by
    rw [Nat.ceil_eq_iff one_ne_zero]
    norm_num
  have hci : confidence_interval [1, 2] (fun l => sum l) 50 2 (fun _ _ => 0) =
      .ok (2, 2) := by
    have hrs : resample [1, 2] (fun _ => 0) = [1, 1] := by
      rw [resample, if_neg (by simp : ¬([1, 2] : List ℚ) = [])]
      norm_num [List.range_succ]
    have hbr : bootstrap_results [1, 2] (fun l => sum l) 2 (fun _ _ => 0) = [2, 2] := by
      norm_num [bootstrap_results, List.range_succ, hrs, sum]
    have hp1 : percentile [2, 2] ((100 - 50) / 2) = .ok 2 := by
      rw [percentile, if_neg (by simp : ¬([2, 2] : List ℚ) = []),
        if_neg (by norm_num : ¬((100 - (50 : ℚ)) / 2 < 0 ∨ 100 < (100 - (50 : ℚ)) / 2))]
      norm_num [interp_at, List.insertionSort, List.orderedInsert, hf14, hc14]
    have hp2 : percentile [2, 2] (100 - (100 - 50) / 2) = .ok 2 := by
      rw [percentile, if_neg (by simp : ¬([2, 2] : List ℚ) = []),
        if_neg (by norm_num :
          ¬(100 - (100 - (50 : ℚ)) / 2 < 0 ∨ 100 < 100 - (100 - (50 : ℚ)) / 2))]
      norm_num [interp_at, List.insertionSort, List.orderedInsert, hf34, hc34]
    rw [confidence_interval, if_neg (by simp : ¬([1, 2] : List ℚ) = []),
      if_neg (by norm_num : ¬((50 : ℚ) ≤ 0 ∨ 100 ≤ (50 : ℚ)))]
    simp only [hbr, hp1, hp2]
  have hci2 : confidence_interval2 [1] [1] (fun l => sum l) 50 2
      (fun _ _ => 0) (fun _ _ => 0) = .ok (0, 0) := by
    have hrs : resample [1] (fun _ => 0) = [1] := by
      rw [resample, if_neg (by simp : ¬([1] : List ℚ) = [])]
      norm_num [List.range_succ]
    have hbr : bootstrap_results2 [1] [1] (fun l => sum l) 2
        (fun _ _ => 0) (fun _ _ => 0) = [0, 0] := by
      norm_num [bootstrap_results2, List.range_succ, hrs, sum]
    have hp1 : percentile [0, 0] ((100 - 50) / 2) = .ok 0 := by
      rw [percentile, if_neg (by simp : ¬([0, 0] : List ℚ) = []),
        if_neg (by norm_num : ¬((100 - (50 : ℚ)) / 2 < 0 ∨ 100 < (100 - (50 : ℚ)) / 2))]
      norm_num [interp_at, List.insertionSort, List.orderedInsert, hf14, hc14]
    have hp2 : percentile [0, 0] (100 - (100 - 50) / 2) = .ok 0 := by
      rw [percentile, if_neg (by simp : ¬([0, 0] : List ℚ) = []),
        if_neg (by norm_num :
          ¬(100 - (100 - (50 : ℚ)) / 2 < 0 ∨ 100 < 100 - (100 - (50 : ℚ)) / 2))]
      norm_num [interp_at, List.insertionSort, List.orderedInsert, hf34, hc34]
    rw [confidence_interval2, if_neg (by simp : ¬([(1 : ℚ)] = [] ∨ [(1 : ℚ)] = [])),
      if_neg (by norm_num : ¬((50 : ℚ) ≤ 0 ∨ 100 ≤ (50 : ℚ)))]
    simp only [hbr, hp1, hp2]
  have h := confidence_interval_low_le_high [1, 2] [1] [1] (fun l => sum l) 50 2
    (fun _ _ => 0) (fun _ _ => 0) (fun _ _ => 0) 2 2 0 0
  exact ⟨hci, hci2, h.1 hci, h.2 hci2⟩

/-- C5: with non-empty input samples, each confidence-interval variant raises
the out-of-range error exactly when the confidence level lies outside the open
interval `(0, 100)`; in particular levels `0` and `100` raise, and every level
strictly between `0` and `100` does not. -/
theorem confidence_interval_level_validation :
    ∀ (data data1 data2 : List ℚ) (func : List ℚ → ℚ) (confidence_level : ℚ)
      (nmax : ℕ) (seeds s1 s2 : ℕ → ℕ → ℕ),
      data ≠ [] → data1 ≠ [] → data2 ≠ [] →
      ((confidence_interval data func confidence_level nmax seeds =
          .error ("Confidence level must be between 0 and 1.")) ↔
        (confidence_level ≤ 0 ∨ 100 ≤ confidence_level)) ∧
      ((confidence_interval2 data1 data2 func confidence_level nmax s1 s2 =
          .error ("Confidence level must be between 0 and 1.")) ↔
        (confidence_level ≤ 0 ∨ 100 ≤ confidence_level)) := by
  intro data data1 data2 func level nmax seeds s1 s2 hd hd1 hd2
  have hd12 : ¬(data1 = [] ∨ data2 = []) := by
    push_neg
    exact ⟨hd1, hd2⟩
  constructor
  · by_cases hg : level ≤ 0 ∨ 100 ≤ level
    · exact ⟨fun _ => hg, fun _ => by simp only [confidence_interval, if_neg hd, if_pos hg]⟩
    · constructor
      · intro h
        exfalso
        have hg' := hg
        push_neg at hg'
        obtain ⟨hg0, hg100⟩ := hg'
        obtain ⟨lo', hi', hplo, hphi, -⟩ :=
          percentile_le_percentile (bootstrap_results data func nmax seeds)
            (show (0 : ℚ) ≤ (100 - level) / 2 by linarith)
            (show (100 - level) / 2 ≤ 100 - (100 - level) / 2 by linarith)
            (show 100 - (100 - level) / 2 ≤ 100 by linarith)
        simp only [confidence_interval, if_neg hd, if_neg hg, hplo, hphi] at h
        exact Except.noConfusion h
      · intro hcontra
        exact absurd hcontra hg
  · by_cases hg : level ≤ 0 ∨ 100 ≤ level
    · exact ⟨fun _ => hg, fun _ => by simp only [confidence_interval2, if_neg hd12, if_pos hg]⟩
    · constructor
      · intro h
        exfalso
        have hg' := hg
        push_neg at hg'
        obtain ⟨hg0, hg100⟩ := hg'
        obtain ⟨lo', hi', hplo, hphi, -⟩ :=
          percentile_le_percentile (bootstrap_results2 data1 data2 func nmax s1 s2)
            (show (0 : ℚ) ≤ (100 - level) / 2 by linarith)
            (show (100 - level) / 2 ≤ 100 - (100 - level) / 2 by linarith)
            (show 100 - (100 - level) / 2 ≤ 100 by linarith)
        simp only [confidence_interval2, if_neg hd12, if_neg hg, hplo, hphi] at h
        exact Except.noConfusion h
      · intro hcontra
        exact absurd hcontra hg

/-- Witness for C5: level `0` raises on the single-sample variant and level
`100` raises on the two-sample variant, at concrete non-empty samples. -/
theorem confidence_interval_level_validation_witness :
    confidence_interval [(1 : ℚ)] (fun l => sum l) 0 1 (fun _ _ => 0) =
      .error ("Confidence level must be between 0 and 1.") ∧
    confidence_interval2 [(1 : ℚ)] [(2 : ℚ)] (fun l => sum l) 100 1
      (fun _ _ => 0) (fun _ _ => 0) =
      .error ("Confidence level must be between 0 and 1.") :=
  ⟨(confidence_interval_level_validation [1] [1] [2] (fun l => sum l) 0 1
      (fun _ _ => 0) (fun _ _ => 0) (fun _ _ => 0)
      (by simp) (by simp) (by simp)).1.mpr (Or.inl le_rfl),
   (confidence_interval_level_validation [1] [1] [2] (fun l => sum l) 100 1
      (fun _ _ => 0) (fun _ _ => 0) (fun _ _ => 0)
      (by simp) (by simp) (by simp)).2.mpr (Or.inr le_rfl)⟩

end BasicStats
